import Mathlib

/-!
Verification of the cinemai conversational assistant.

Shallow embedding of `src/cinemai.py` and `src/utils/response_handler.py`:
the intent enum and the response-handler hierarchy, the dispatcher step of
the main loop, the per-turn query branch, the session store, the session-id
generator, and the on-exit memory dump.  External services (the language
model and the Neo4j graph backend) are modelled as function parameters;
Python exceptions are modelled with `Except`.
-/

namespace Cinemai

/-- A conversation message: role (human/ai) plus text content, the element
type of a `ChatMessageHistory`. -/
structure Message where
  role : String
  content : String
deriving DecidableEq, Repr

/-- The `ResponseTypes` enum of `src/utils/response_handler.py`: four intent
codes with one-character values Q, M, F, I. -/
inductive ResponseTypes where
  | QUERY
  | MEMORY
  | FEEDBACK
  | INVALID
deriving DecidableEq, Repr

/-- The Python enum constructor `ResponseTypes(value)`: looks a member up by
its one-character value and raises `ValueError` for any other character. -/
def ResponseTypes.ofValue (c : Char) : Except String ResponseTypes :=
  if c = 'Q' then .ok .QUERY
  else if c = 'M' then .ok .MEMORY
  else if c = 'F' then .ok .FEEDBACK
  else if c = 'I' then .ok .INVALID
  else .error "ValueError"

/-- The response-handler class hierarchy of `src/utils/response_handler.py`:
each concrete subclass of `ResponseHandler` is one variant. -/
inductive ResponseHandler where
  | queryHandler
  | memoryHandler
  | feedbackHandler
  | invalidHandler
deriving DecidableEq, Repr

/-- The `type_` attribute each subclass passes to the base constructor. -/
def ResponseHandler.type_ : ResponseHandler → ResponseTypes
  | .queryHandler => .QUERY
  | .memoryHandler => .MEMORY
  | .feedbackHandler => .FEEDBACK
  | .invalidHandler => .INVALID

/-- The graph-backend success payload consumed by the query handler: a dict
exposing a textual `result` field (`DbResponse` in the spec). -/
structure DbResponse where
  result : String
deriving DecidableEq, Repr

/-- The `QueryResponseHandler.get_context` method: templates the `result`
field of the db response dict into a fixed context string. -/
def QueryResponseHandler.get_context (db_response : DbResponse) : String :=
  "Context: database response was " ++ db_response.result

/-- The `MemoryResponseHandler.get_context` method: a fixed instruction
string, the `*args` variadic parameter is ignored. -/
def MemoryResponseHandler.get_context {α : Type} (args : List α) : String :=
  "Context: respond using memory history."

/-- The `FeedbackResponseHandler.get_context` method: a fixed instruction
string, the `*args` variadic parameter is ignored. -/
def FeedbackResponseHandler.get_context {α : Type} (args : List α) : String :=
  "Context: user provided feedback."

/-- The `InvalidResponseHandler.get_context` method: a fixed instruction
string, the `*args` variadic parameter is ignored. -/
def InvalidResponseHandler.get_context {α : Type} (args : List α) : String :=
  "Context: user provided invalid query."

/-- The `ResponseHandlerFactory.create_response_handler` static method: maps
each `ResponseTypes` member to its handler class; the Python `else` branch
(invalid handler) is unreachable for genuine enum members. -/
def ResponseHandlerFactory.create_response_handler : ResponseTypes → ResponseHandler
  | .QUERY => .queryHandler
  | .MEMORY => .memoryHandler
  | .FEEDBACK => .feedbackHandler
  | .INVALID => .invalidHandler

/-- The handler-selection step of `main` (src/cinemai.py lines 234-242):
builds `ResponseTypes` from character 0 of the classification output and
calls the factory; a `ValueError` from the enum constructor is caught and
defaulted to the INVALID handler, but indexing an empty output raises
`IndexError`, which the surrounding `except ValueError` clause does not
catch. -/
def selectResponseHandler (content : String) : Except String ResponseHandler :=
  match content.data with
  | [] => .error "IndexError"
  | c :: _ =>
    match ResponseTypes.ofValue c with
    | .ok t => .ok (ResponseHandlerFactory.create_response_handler t)
    | .error _ => .ok (ResponseHandlerFactory.create_response_handler ResponseTypes.INVALID)

/-- The `additional_info` expression of `main` (src/cinemai.py line 247):
the classification output sliced from index 3 on when it is longer than 3
characters, the empty string otherwise. -/
def additional_info (content : String) : String :=
  if content.length > 3 then String.mk (content.data.drop 3) else ""

/-- The argument `main` passes to `cypher_chain.invoke` (src/cinemai.py
line 248): `additional_info + " " + user_query`. -/
def backendInput (content userQuery : String) : String :=
  additional_info content ++ " " ++ userQuery

/-- The fixed apology result substituted when the backend raises
(src/cinemai.py line 250). -/
def apologyText : String := "I'm sorry, I couldn't find any results."

/-- The fixed instruction concatenated between the context and the original
query in the final language-model call (src/cinemai.py lines 256-263). -/
def instructionText : String :=
  "Using the context, respond to following query (remember to incorporate any and all past feedback):"

/-- Observable outcome of the dispatch portion of one turn: the produced
context string, the list of inputs the graph backend was invoked with, and
the question string composed for the final language-model call. -/
structure TurnOutcome where
  context : String
  backendCalls : List String
  finalQuestion : String
deriving DecidableEq, Repr

/-- One turn of the dispatcher (src/cinemai.py lines 234-263), given the
classification output `content` and the user's query.  The graph backend
(`cypher_chain.invoke` followed by the `result` field access) is modelled as
a function returning the textual result or a raised exception.  The QUERY
branch invokes the backend, substituting the apology payload on any
exception; the other branches call their handler's `get_context` with no
arguments and never touch the backend. -/
def mainTurn (backend : String → Except String String)
    (content userQuery : String) : Except String TurnOutcome :=
  match selectResponseHandler content with
  | .error e => .error e
  | .ok handler =>
    if handler.type_ = ResponseTypes.QUERY then
      let input := backendInput content userQuery
      let db_response : DbResponse :=
        match backend input with
        | .ok r => ⟨r⟩
        | .error _ => ⟨apologyText⟩
      let context := QueryResponseHandler.get_context db_response
      .ok ⟨context, [input], context ++ instructionText ++ userQuery⟩
    else
      let context :=
        match handler with
        | .memoryHandler => MemoryResponseHandler.get_context ([] : List String)
        | .feedbackHandler => FeedbackResponseHandler.get_context ([] : List String)
        | _ => InvalidResponseHandler.get_context ([] : List String)
      .ok ⟨context, [], context ++ instructionText ++ userQuery⟩

/-- The process-wide `_SESSION_STORE` dict of `src/cinemai.py`: a mapping
from session id to a `ChatMessageHistory` (ordered message list), modelled
as a partial map. -/
def SessionStore : Type := String → Option (List Message)

/-- The `get_session_history` function (src/cinemai.py lines 143-156):
creates an empty history under the id on first access, then returns the
store entry.  Returns the possibly-updated store together with the messages
of the returned history handle. -/
def get_session_history (store : SessionStore) (session_id : String) :
    SessionStore × List Message :=
  match store session_id with
  | some h => (store, h)
  | none => (fun k => if k = session_id then some [] else store k, [])

/-- One message appended through the history handle obtained from
`get_session_history`, as the `RunnableWithMessageHistory` wrapper does:
fetch-or-create the session's history, then append `m` at its end. -/
def addMessage (store : SessionStore) (session_id : String) (m : Message) :
    SessionStore :=
  let store1 := (get_session_history store session_id).1
  fun k => if k = session_id then (store1 session_id).map (fun h => h ++ [m]) else store1 k

/-- The population `string.ascii_letters + string.digits` that
`generate_session_id` samples from. -/
def alphabetCharacters : List Char :=
  "abcdefghijklmnopqrstuvwxyzABCDEFGHIJKLMNOPQRSTUVWXYZ0123456789".data

/-- The `generate_session_id` function (src/cinemai.py lines 50-59): joins
`length` draws of `random.choices` over letters + digits.  The random draw
at position `i` is modelled by the index function `choice`, reduced modulo
the population size since `random.choices` always returns members of the
population; `main` calls it with the default `length` of 6. -/
def generate_session_id (choice : Nat → Nat) (length : Nat) : String :=
  String.mk ((List.range length).map
    (fun i => alphabetCharacters.getD (choice i % alphabetCharacters.length) 'a'))

/-- The driver-level state of one run of `main`: the session id fixed at
process start, the session store, and how many `chain_with_history.invoke`
calls have been made. -/
structure RunState where
  sessionId : String
  store : SessionStore
  llmCalls : Nat

/-- The state of `main` right after `session_id = generate_session_id()`
(src/cinemai.py lines 212-213): fresh empty store, no model calls yet. -/
def initRun (choice : Nat → Nat) : RunState :=
  ⟨generate_session_id choice 6, fun _ => none, 0⟩

/-- One `chain_with_history.invoke` call with the run's config: the
`RunnableWithMessageHistory` wrapper resolves the history for the config's
session id via `get_session_history` (creating it on first use) and appends
the human question and the model's answer to it. -/
def llmInvoke (s : RunState) (question answer : String) : RunState :=
  ⟨s.sessionId,
    addMessage (addMessage s.store s.sessionId ⟨"human", question⟩) s.sessionId
      ⟨"ai", answer⟩,
    s.llmCalls + 1⟩

/-- A run consisting of the startup step followed by a sequence of
language-model calls, each recorded as its (question, answer) pair. -/
def runInvokes (choice : Nat → Nat) (qas : List (String × String)) : RunState :=
  qas.foldl (fun s p => llmInvoke s p.1 p.2) (initRun choice)

/-- The on-exit memory dump's store access `_SESSION_STORE[session_id]`
(src/cinemai.py lines 274-278): an unguarded dict lookup that raises
`KeyError` when the session id was never inserted. -/
def dumpMemoryLookup (s : RunState) : Except String (List Message) :=
  match s.store s.sessionId with
  | some h => .ok h
  | none => .error "KeyError"

/-- A JSON-like value, the shape of the structured text persisted by the
on-exit dump. -/
inductive Json where
  | str : String → Json
  | arr : List Json → Json
  | obj : List (String × Json) → Json

/-- Modelled from the spec: the on-exit dump (src/cinemai.py lines 274-278)
serializes the session history through the history object's JSON
serialization, "a file ... containing the full ordered turn sequence as
structured text (role + content pairs)"; the repository contains no loader,
so the layout is one JSON object of role and content per message, in
order. -/
def dumpHistoryJson (h : List Message) : Json :=
  .arr (h.map (fun m => .obj [("role", .str m.role), ("content", .str m.content)]))

/-- Modelled from the spec: reading one persisted message back from its
role + content object. -/
def loadMessageJson : Json → Option Message
  | .obj (("role", .str r) :: ("content", .str c) :: []) => some ⟨r, c⟩
  | _ => none

/-- Modelled from the spec: reading a persisted message list back in
order, failing if any element is malformed. -/
def loadMessagesJson : List Json → Option (List Message)
  | [] => some []
  | j :: js =>
    match loadMessageJson j, loadMessagesJson js with
    | some m, some ms => some (m :: ms)
    | _, _ => none

/-- Modelled from the spec: reloading a persisted session history file. -/
def loadHistoryJson : Json → Option (List Message)
  | .arr js => loadMessagesJson js
  | _ => none

/-- C1: for every non-empty classification output whose first character is
not one of Q, M, F, I, the dispatcher returns normally (the ValueError from
the enum constructor is caught, never reaching the caller) and selects the
invalid handler, uniformly in the unrecognized value. -/
theorem C1_unrecognized_code_selects_invalid (c : Char) (rest : List Char)
    (hQ : c ≠ 'Q') (hM : c ≠ 'M') (hF : c ≠ 'F') (hI : c ≠ 'I') :
    selectResponseHandler (String.mk (c :: rest)) = .ok .invalidHandler := by
  simp [selectResponseHandler, ResponseTypes.ofValue, hQ, hM, hF, hI,
    ResponseHandlerFactory.create_response_handler]

/-- Witness for C1 at the concrete output "X foo". -/
theorem C1_unrecognized_code_selects_invalid_witness :
    selectResponseHandler (String.mk ('X' :: " foo".data)) = .ok .invalidHandler :=
  C1_unrecognized_code_selects_invalid 'X' " foo".data (by decide) (by decide)
    (by decide) (by decide)

/-- C2: in a Query-intent turn whose backend call raises, the turn returns
normally, its context embeds the fixed apology text rather than the raised
exception, and the final language-model question is still composed from that
context. -/
theorem C2_backend_failure_apology (content userQuery e : String)
    (backend : String → Except String String)
    (hQ : content.data.head? = some 'Q')
    (hb : backend (backendInput content userQuery) = .error e) :
    ∃ t, mainTurn backend content userQuery = .ok t ∧
      t.context = "Context: database response was " ++ apologyText ∧
      (∃ pre post, t.context = pre ++ apologyText ++ post) ∧
      t.finalQuestion = t.context ++ instructionText ++ userQuery := by
  obtain ⟨data⟩ := content
  cases data with
  | nil => simp at hQ
  | cons c cs =>
    simp at hQ
    subst hQ
    have hsel : selectResponseHandler (String.mk ('Q' :: cs)) = .ok .queryHandler := rfl
    have hmain : mainTurn backend (String.mk ('Q' :: cs)) userQuery =
        .ok ⟨"Context: database response was " ++ apologyText,
          [backendInput (String.mk ('Q' :: cs)) userQuery],
          "Context: database response was " ++ apologyText ++ instructionText
            ++ userQuery⟩ := by
      unfold mainTurn
      rw [hsel]
      simp [ResponseHandler.type_, hb, QueryResponseHandler.get_context]
    exact ⟨_, hmain, rfl, ⟨"Context: database response was ", "", by simp⟩, rfl⟩

/-- Witness for C2: with a backend that always raises, classification
output "Q" and query "hi". -/
theorem C2_backend_failure_apology_witness :
    ∃ t, mainTurn (fun _ => .error "boom") "Q" "hi" = .ok t ∧
      t.context = "Context: database response was " ++ apologyText ∧
      (∃ pre post, t.context = pre ++ apologyText ++ post) ∧
      t.finalQuestion = t.context ++ instructionText ++ "hi" :=
  C2_backend_failure_apology "Q" "hi" "boom" (fun _ => .error "boom") rfl rfl

/-- C3 counterexample: for classification result "Q  The Matrix" and query
"q" the backend is invoked with "The Matrix q" — characters from index 3 on
("The Matrix") plus a space plus the query — not with " The Matrix q" as
the claim's particular instance states. -/
theorem C3_backend_input_counterexample :
    (∃ t, mainTurn (fun s => .ok s) "Q  The Matrix" "q" = .ok t ∧
        t.backendCalls = ["The Matrix q"] ∧
        t.backendCalls ≠ [" The Matrix " ++ "q"]) ∧
    ("The Matrix q" : String) ≠ " The Matrix " ++ "q" :=
  ⟨⟨⟨"Context: database response was The Matrix q", ["The Matrix q"],
      "Context: database response was The Matrix q" ++ instructionText ++ "q"⟩,
    rfl, rfl, by decide⟩, by decide⟩

/-- C3 amended: in every Query-intent turn the backend is invoked exactly
once, with the slice of the classification output from index 3 on (empty
when the output has at most 3 characters) plus a single space plus the
original query; on backend success the context embeds the backend's
result. -/
theorem C3_backend_input_amended (content userQuery r : String)
    (backend : String → Except String String)
    (hQ : content.data.head? = some 'Q')
    (hb : backend (additional_info content ++ " " ++ userQuery) = .ok r) :
    ∃ t, mainTurn backend content userQuery = .ok t ∧
      t.backendCalls = [additional_info content ++ " " ++ userQuery] ∧
      t.context = "Context: database response was " ++ r ∧
      (∃ pre post, t.context = pre ++ r ++ post) := by
  obtain ⟨data⟩ := content
  cases data with
  | nil => simp at hQ
  | cons c cs =>
    simp at hQ
    subst hQ
    have hsel : selectResponseHandler (String.mk ('Q' :: cs)) = .ok .queryHandler := rfl
    have hmain : mainTurn backend (String.mk ('Q' :: cs)) userQuery =
        .ok ⟨"Context: database response was " ++ r,
          [backendInput (String.mk ('Q' :: cs)) userQuery],
          "Context: database response was " ++ r ++ instructionText ++ userQuery⟩ := by
      unfold mainTurn
      rw [hsel]
      simp [ResponseHandler.type_, backendInput, hb, QueryResponseHandler.get_context]
    exact ⟨_, hmain, rfl, rfl, ⟨"Context: database response was ", "", by simp⟩⟩

/-- Witness for the amended C3 at the spec's scenario: classification
result "Q  The Matrix", query "q", echoing backend. -/
theorem C3_backend_input_amended_witness :
    ∃ t, mainTurn (fun s => .ok s) "Q  The Matrix" "q" = .ok t ∧
      t.backendCalls = [additional_info "Q  The Matrix" ++ " " ++ "q"] ∧
      t.context = "Context: database response was " ++ "The Matrix q" ∧
      (∃ pre post, t.context = pre ++ "The Matrix q" ++ post) :=
  C3_backend_input_amended "Q  The Matrix" "q" "The Matrix q" (fun s => .ok s)
    rfl (congrArg Except.ok (by decide))

/-- C4: evaluating the dispatcher at the empty classification output: the
character-0 index raises IndexError, which the `except ValueError` clause
does not catch, so the turn errors out instead of degrading to the Invalid
handler's fixed context string. -/
theorem C4_empty_output_raises :
    selectResponseHandler "" = .error "IndexError" ∧
    mainTurn (fun _ => .ok "r") "" "q" = .error "IndexError" ∧
    InvalidResponseHandler.get_context ([] : List String) =
      "Context: user provided invalid query." :=
  ⟨rfl, rfl, rfl⟩

/-- C6: a turn with classification output "M" selects the memory handler,
invokes the backend zero times and produces the fixed memory-instruction
context; more generally every turn whose selected handler is not the query
handler performs zero backend calls. -/
theorem C6_memory_no_backend_call :
    (∀ (backend : String → Except String String) (q : String),
      mainTurn backend "M" q =
        .ok ⟨"Context: respond using memory history.", [],
          "Context: respond using memory history." ++ instructionText ++ q⟩) ∧
    (∀ (backend : String → Except String String) (q content : String)
        (h : ResponseHandler), selectResponseHandler content = .ok h →
        h ≠ .queryHandler →
        ∃ t, mainTurn backend content q = .ok t ∧ t.backendCalls = []) := by
  constructor
  · intro backend q
    rfl
  · intro backend q content h hsel hne
    unfold mainTurn
    rw [hsel]
    cases h with
    | queryHandler => exact absurd rfl hne
    | memoryHandler => exact ⟨_, rfl, rfl⟩
    | feedbackHandler => exact ⟨_, rfl, rfl⟩
    | invalidHandler => exact ⟨_, rfl, rfl⟩

/-- Witness for C6: the "M" scenario and the feedback variant, both with a
live backend that is never consulted. -/
theorem C6_memory_no_backend_call_witness :
    mainTurn (fun _ => .ok "r") "M" "hi" =
      .ok ⟨"Context: respond using memory history.", [],
        "Context: respond using memory history." ++ instructionText ++ "hi"⟩ ∧
    ∃ t, mainTurn (fun _ => .ok "r") "F" "hi" = .ok t ∧ t.backendCalls = [] :=
  ⟨C6_memory_no_backend_call.1 (fun _ => .ok "r") "hi",
    C6_memory_no_backend_call.2 (fun _ => .ok "r") "hi" "F" .feedbackHandler rfl
      (by decide)⟩

/-- C9: the memory, feedback and invalid handlers' `get_context` methods
return the same fixed string whatever argument list each call receives, of
whatever type. -/
theorem C9_fixed_handlers_ignore_arguments :
    (∀ (α β : Type) (a : List α) (b : List β),
      MemoryResponseHandler.get_context a = MemoryResponseHandler.get_context b) ∧
    (∀ (α β : Type) (a : List α) (b : List β),
      FeedbackResponseHandler.get_context a = FeedbackResponseHandler.get_context b) ∧
    (∀ (α β : Type) (a : List α) (b : List β),
      InvalidResponseHandler.get_context a = InvalidResponseHandler.get_context b) :=
  ⟨fun _ _ _ _ => rfl, fun _ _ _ _ => rfl, fun _ _ _ _ => rfl⟩

/-- On a present session id, `get_session_history` is the identity on the
store and returns the stored sequence. -/
theorem get_session_history_of_some (store : SessionStore) (sid : String)
    (h : List Message) (hs : store sid = some h) :
    get_session_history store sid = (store, h) := by
  simp [get_session_history, hs]

/-- Appending through the history handle extends the stored sequence of an
already-present session by exactly that message. -/
theorem addMessage_lookup (s : SessionStore) (sid : String) (m : Message)
    (h : List Message) (hs : s sid = some h) :
    addMessage s sid m sid = some (h ++ [m]) := by
  simp [addMessage, get_session_history, hs]

/-- Folding a message list through `addMessage` appends it, in order, to an
already-present session's sequence. -/
theorem foldl_addMessage_lookup (sid : String) (ms : List Message)
    (s : SessionStore) (h : List Message) (hs : s sid = some h) :
    (ms.foldl (fun st m => addMessage st sid m) s) sid = some (h ++ ms) := by
  induction ms generalizing s h with
  | nil => simpa using hs
  | cons m ms ih =>
    simp only [List.foldl_cons]
    rw [ih (addMessage s sid m) (h ++ [m]) (addMessage_lookup s sid m h hs)]
    simp

/-- After `addMessage` the session's entry is always present, whether or not
it existed before. -/
theorem addMessage_isSome (s : SessionStore) (sid : String) (m : Message) :
    ∃ h, addMessage s sid m sid = some h := by
  cases hs : s sid with
  | some h => exact ⟨h ++ [m], addMessage_lookup s sid m h hs⟩
  | none =>
    refine ⟨[m], ?_⟩
    simp [addMessage, get_session_history, hs]

/-- `llmInvoke` never changes the run's session id. -/
theorem llmInvoke_sessionId (s : RunState) (q a : String) :
    (llmInvoke s q a).sessionId = s.sessionId := rfl

/-- After any `llmInvoke` the store holds an entry for the run's session
id. -/
theorem llmInvoke_present (s : RunState) (q a : String) :
    ∃ h, (llmInvoke s q a).store (llmInvoke s q a).sessionId = some h :=
  addMessage_isSome _ s.sessionId _

/-- Presence of the session entry is preserved by any sequence of
language-model calls. -/
theorem foldl_llmInvoke_present (qas : List (String × String)) (s : RunState)
    (hs : ∃ h, s.store s.sessionId = some h) :
    ∃ h, (qas.foldl (fun st p => llmInvoke st p.1 p.2) s).store
      (qas.foldl (fun st p => llmInvoke st p.1 p.2) s).sessionId = some h := by
  induction qas generalizing s with
  | nil => exact hs
  | cons p ps ih => exact ih (llmInvoke s p.1 p.2) (llmInvoke_present s p.1 p.2)

/-- Each `llmInvoke` in a run increments the call counter by one. -/
theorem foldl_llmInvoke_llmCalls (qas : List (String × String)) (s : RunState) :
    (qas.foldl (fun st p => llmInvoke st p.1 p.2) s).llmCalls
      = s.llmCalls + qas.length := by
  induction qas generalizing s with
  | nil => simp
  | cons p ps ih =>
    simp only [List.foldl_cons, List.length_cons]
    rw [ih (llmInvoke s p.1 p.2)]
    simp [llmInvoke]
    omega

/-- A run's session id stays whatever it was at the start. -/
theorem foldl_llmInvoke_sessionId (qas : List (String × String)) (s : RunState) :
    (qas.foldl (fun st p => llmInvoke st p.1 p.2) s).sessionId = s.sessionId := by
  induction qas generalizing s with
  | nil => rfl
  | cons p ps ih => simpa using ih (llmInvoke s p.1 p.2)

/-- C5: for a session id not yet in the store, `get_session_history` creates
an empty turn sequence; a second call with the same id leaves the store
unchanged and returns the same sequence; and after N turns are appended a
further call observes exactly those N turns in append order. -/
theorem C5_store_idempotent_and_ordered (store : SessionStore) (sid : String)
    (ms : List Message) (hfresh : store sid = none) :
    (get_session_history store sid).2 = [] ∧
    (get_session_history (get_session_history store sid).1 sid).1
      = (get_session_history store sid).1 ∧
    (get_session_history (get_session_history store sid).1 sid).2
      = (get_session_history store sid).2 ∧
    (get_session_history
        (ms.foldl (fun s m => addMessage s sid m) (get_session_history store sid).1)
        sid).2 = ms := by
  have h1 : get_session_history store sid
      = (fun k => if k = sid then some [] else store k, []) := by
    simp [get_session_history, hfresh]
  have hlook : (get_session_history store sid).1 sid = some [] := by
    rw [h1]
    simp
  have hfold : (ms.foldl (fun s m => addMessage s sid m)
      (get_session_history store sid).1) sid = some ms := by
    simpa using foldl_addMessage_lookup sid ms _ [] hlook
  refine ⟨by rw [h1], ?_, ?_, ?_⟩
  · rw [get_session_history_of_some _ _ _ hlook]
  · rw [get_session_history_of_some _ _ _ hlook, h1]
  · rw [get_session_history_of_some _ _ _ hfold]

/-- Witness for C5: a fresh store, session id "s1", two appended turns. -/
theorem C5_store_idempotent_and_ordered_witness :
    (get_session_history (fun _ => none) "s1").2 = [] ∧
    (get_session_history (get_session_history (fun _ => none) "s1").1 "s1").1
      = (get_session_history (fun _ => none) "s1").1 ∧
    (get_session_history (get_session_history (fun _ => none) "s1").1 "s1").2
      = (get_session_history (fun _ => none) "s1").2 ∧
    (get_session_history
        (([⟨"human", "hi"⟩, ⟨"ai", "hello"⟩] : List Message).foldl
          (fun s m => addMessage s "s1" m)
          (get_session_history (fun _ => none) "s1").1)
        "s1").2 = [⟨"human", "hi"⟩, ⟨"ai", "hello"⟩] :=
  C5_store_idempotent_and_ordered (fun _ => none) "s1"
    [⟨"human", "hi"⟩, ⟨"ai", "hello"⟩] rfl

/-- C7: dumping a session history to the persisted role + content layout
and reloading it reproduces the same ordered message sequence. -/
theorem C7_dump_reload_roundtrip (h : List Message) :
    loadHistoryJson (dumpHistoryJson h) = some h := by
  have key : ∀ hs : List Message,
      loadMessagesJson (hs.map (fun m => Json.obj
        [("role", Json.str m.role), ("content", Json.str m.content)])) = some hs := by
    intro hs
    induction hs with
    | nil => rfl
    | cons m tl ih => simp [loadMessagesJson, loadMessageJson, ih]
  exact key h

/-- Every character of the sampled population is alphanumeric. -/
theorem alphabetCharacters_alphanum : ∀ c ∈ alphabetCharacters, c.isAlphanum = true := by
  decide

/-- C8: the generated session id has exactly 6 characters, every one of
them an ASCII letter or digit, and every language-model call of the run is
made under that same unchanged id. -/
theorem C8_session_id_shape (choice : Nat → Nat) :
    (generate_session_id choice 6).length = 6 ∧
    (∀ c ∈ (generate_session_id choice 6).data, c.isAlphanum = true) ∧
    (∀ qas, (runInvokes choice qas).sessionId = generate_session_id choice 6) := by
  refine ⟨?_, ?_, ?_⟩
  · simp [generate_session_id, String.length]
  · intro c hc
    simp only [generate_session_id, List.mem_map, List.mem_range] at hc
    obtain ⟨i, hi, hgc⟩ := hc
    have hlt : choice i % alphabetCharacters.length < alphabetCharacters.length :=
      Nat.mod_lt _ (by decide)
    rw [← hgc, List.getD_eq_getElem _ _ hlt]
    exact alphabetCharacters_alphanum _ (List.getElem_mem hlt)
  · intro qas
    exact foldl_llmInvoke_sessionId qas (initRun choice)

/-- Witness for C8 with the constant-zero draw. -/
theorem C8_session_id_shape_witness :
    (generate_session_id (fun _ => 0) 6).length = 6 ∧
    ('a').isAlphanum = true ∧
    (runInvokes (fun _ => 0) []).sessionId = generate_session_id (fun _ => 0) 6 :=
  ⟨(C8_session_id_shape (fun _ => 0)).1,
    (C8_session_id_shape (fun _ => 0)).2.1 'a' (by decide),
    (C8_session_id_shape (fun _ => 0)).2.2 []⟩

/-- C10: the on-exit dump's unguarded `_SESSION_STORE[session_id]` lookup
succeeds exactly when at least one language-model call has been made in the
run; before the first call (interrupt at the first prompt) it reaches the
KeyError branch. -/
theorem C10_dump_lookup_iff_llm_call (choice : Nat → Nat)
    (qas : List (String × String)) :
    ((∃ h, dumpMemoryLookup (runInvokes choice qas) = .ok h) ↔
      1 ≤ (runInvokes choice qas).llmCalls) ∧
    (runInvokes choice qas).llmCalls = qas.length ∧
    dumpMemoryLookup (runInvokes choice []) = .error "KeyError" := by
  have hcount : (runInvokes choice qas).llmCalls = qas.length := by
    simpa [initRun] using foldl_llmInvoke_llmCalls qas (initRun choice)
  refine ⟨?_, hcount, rfl⟩
  cases qas with
  | nil =>
    constructor
    · rintro ⟨h, hh⟩
      exact absurd hh (by simp [runInvokes, initRun, dumpMemoryLookup])
    · intro hge
      rw [hcount] at hge
      exact absurd hge (by simp)
  | cons p ps =>
    constructor
    · intro _
      rw [hcount]
      simp
    · intro _
      obtain ⟨h, hh⟩ := foldl_llmInvoke_present ps (llmInvoke (initRun choice) p.1 p.2)
        (llmInvoke_present (initRun choice) p.1 p.2)
      refine ⟨h, ?_⟩
      simp only [runInvokes, List.foldl_cons] at hh ⊢
      simp [dumpMemoryLookup, hh]

end Cinemai
